import Mathlib

/-!
Shallow embedding of the personal-feed SQLite persistence layer (`src/lib/db.ts`)
and its remote-sync reconciliation module (`src/lib/sync.ts`), together with
theorems checking the repository's specification claims against the code.

Conventions of the embedding:
* SQLite tables become Lean lists of row structures; the `items.url UNIQUE`
  and `sources.id PRIMARY KEY` constraints appear as hypotheses where needed.
* JavaScript `async` functions that can `throw` become functions into
  `Except String`; `datetime('now')` / `new Date().toISOString()` become an
  explicit `now : String` argument.
* JSON payload values are modelled by the inductive `JsonVal`; an absent
  object property is `Option.none` at use sites, a JSON `null` is `JsonVal.null`.
* Platform functions used by the source (WHATWG `URL`, JS `Date` parsing,
  `String.prototype.trim`, `Number`) are modelled on the input sub-language the
  repository exercises: hierarchical `scheme://host/path` URLs, ISO-8601 UTC
  date strings, ASCII whitespace trimming and plain decimal numerals.
-/

/-! ### Definitions: the embedded data model and operations -/

inductive JsonVal where
  | s (v : String)
  | num (v : Rat)
  | b (v : Bool)
  | null
  | arr (vs : List JsonVal)
  | obj (fields : List (String × JsonVal))

inductive Category where
  | crypto | marketing | tech | general
deriving DecidableEq

inductive SourceType where
  | rss | html | email
deriving DecidableEq

inductive ItemStatus where
  | unread | read | clipped | dismissed | saved
deriving DecidableEq

def isJsSpace (c : Char) : Bool :=
  c = ' ' || c = '\t' || c = '\n' || c = '\r'

def trimStr (s : String) : String :=
  ⟨((s.data.dropWhile isJsSpace).reverse.dropWhile isJsSpace).reverse⟩

structure ItemRow where
  id : Nat
  source_id : String
  title : String
  url : String
  author : Option String
  published_at : Option String
  fetched_at : String
  content_md : Option String
  content_text : Option String
  summary : Option String
  score : Rat
  status : ItemStatus
  acted_at : Option String
deriving DecidableEq

structure ItemsTable where
  rows : List ItemRow
  nextId : Nat
deriving DecidableEq

structure SourceRow where
  id : String
  name : String
  url : String
  type : SourceType
  category : Category
  enabled : Bool
  added_at : String
deriving DecidableEq

structure UpsertItemInput where
  source_id : String
  title : String
  url : String
  author : Option String := none
  published_at : Option String := none
  content_md : Option String := none
  content_text : Option String := none
  summary : Option String := none
  score : Option Rat := none
  status : Option ItemStatus := none
  acted_at : Option String := none
deriving DecidableEq

structure UpsertSourceInput where
  id : String
  name : String
  url : String
  type : SourceType
  category : Category
  enabled : Option Bool := none
  added_at : Option String := none
deriving DecidableEq

def coalesce (x y : Option String) : Option String :=
  match x with
  | some v => some v
  | none => y

def conflictUpdate (now : String) (i : UpsertItemInput) (r : ItemRow) : ItemRow :=
  { r with
    source_id := i.source_id
    title := i.title
    author := coalesce i.author r.author
    published_at := coalesce i.published_at r.published_at
    content_md := coalesce i.content_md r.content_md
    content_text := coalesce i.content_text r.content_text
    summary := coalesce i.summary r.summary
    score := if r.score < i.score.getD 0 then i.score.getD 0 else r.score
    fetched_at := now }

def newItemRow (now : String) (id : Nat) (i : UpsertItemInput) : ItemRow :=
  { id := id
    source_id := i.source_id
    title := i.title
    url := i.url
    author := i.author
    published_at := i.published_at
    fetched_at := now
    content_md := i.content_md
    content_text := i.content_text
    summary := i.summary
    score := i.score.getD 0
    status := i.status.getD .unread
    acted_at := i.acted_at }

def upsertItemStep (now : String) (i : UpsertItemInput) (t : ItemsTable) : ItemsTable :=
  if t.rows.any (fun r => r.url = i.url) then
    { t with rows := t.rows.map (fun r => if r.url = i.url then conflictUpdate now i r else r) }
  else
    { rows := t.rows ++ [newItemRow now t.nextId i], nextId := t.nextId + 1 }

def upsertItem (now : String) (i : UpsertItemInput) (t : ItemsTable) :
    Except String ItemsTable :=
  if trimStr i.source_id = "" then .error "upsertItem requires source_id"
  else if trimStr i.url = "" then .error "upsertItem requires url"
  else if trimStr i.title = "" then .error "upsertItem requires title"
  else .ok (upsertItemStep now i t)

def enabledBit (e : Option Bool) : Bool :=
  match e with
  | some false => false
  | _ => true

def sourceConflictUpdate (s : UpsertSourceInput) (r : SourceRow) : SourceRow :=
  { r with
    name := s.name
    url := s.url
    type := s.type
    category := s.category
    enabled := enabledBit s.enabled }

def upsertSource (now : String) (s : UpsertSourceInput) (tbl : List SourceRow) :
    Except String (List SourceRow) :=
  if trimStr s.id = "" then .error "upsertSource requires id"
  else if trimStr s.url = "" then .error "upsertSource requires url"
  else if trimStr s.name = "" then .error "upsertSource requires name"
  else if tbl.any (fun r => r.id = s.id) then
    .ok (tbl.map (fun r => if r.id = s.id then sourceConflictUpdate s r else r))
  else
    .ok (tbl ++ [{ id := s.id, name := s.name, url := s.url, type := s.type,
                   category := s.category, enabled := enabledBit s.enabled,
                   added_at := s.added_at.getD now }])

def findItemRow (u : String) (rows : List ItemRow) : Option ItemRow :=
  rows.find? (fun r => r.url = u)

def countUrl (u : String) (rows : List ItemRow) : Nat :=
  rows.countP (fun r => r.url = u)

def findSourceRow (k : String) (tbl : List SourceRow) : Option SourceRow :=
  tbl.find? (fun r => r.id = k)

def toStringValue (v : Option JsonVal) : Option String :=
  match v with
  | some (.s raw) =>
    let trimmed := trimStr raw
    if trimmed = "" then none else some trimmed
  | _ => none

def parseCategory (v : Option JsonVal) : Category :=
  match toStringValue v with
  | some "Crypto" => .crypto
  | some "Marketing" => .marketing
  | some "Tech" => .tech
  | some "General" => .general
  | _ => .general

def parseStatus (v : Option JsonVal) : ItemStatus :=
  match toStringValue v with
  | some "unread" => .unread
  | some "read" => .read
  | some "clipped" => .clipped
  | some "dismissed" => .dismissed
  | some "saved" => .saved
  | _ => .unread

def parseSourceType (v : Option JsonVal) : SourceType :=
  match toStringValue v with
  | some "rss" => .rss
  | some "html" => .html
  | some "email" => .email
  | _ => .rss

def decDigits (acc : Nat) : List Char → Option (Nat × List Char)
  | [] => some (acc, [])
  | c :: rest =>
    if c.isDigit then decDigits (acc * 10 + (c.toNat - 48)) rest
    else some (acc, c :: rest)

def parseDecimal (str : String) : Option Rat :=
  let t := trimStr str
  if t = "" then some 0
  else
    let (neg, body) :=
      match t.data with
      | '-' :: rest => (true, rest)
      | '+' :: rest => (false, rest)
      | l => (false, l)
    match body with
    | [] => none
    | c :: _ =>
      if ¬ c.isDigit then none
      else
        match decDigits 0 body with
        | none => none
        | some (whole, rest) =>
          match rest with
          | [] => some (if neg then -(whole : Rat) else (whole : Rat))
          | '.' :: frac =>
            if frac.isEmpty ∨ frac.any (fun d => ¬ d.isDigit) then none
            else
              match decDigits 0 frac with
              | some (f, _) =>
                let q : Rat := (whole : Rat) + (f : Rat) / ((10 : Rat) ^ frac.length)
                some (if neg then -q else q)
              | none => none
          | _ => none

def parseNumber (v : Option JsonVal) : Option Rat :=
  match v with
  | some (.num q) => some q
  | some (.s str) => parseDecimal str
  | _ => none

def takeFixedDigits (acc : Nat) : Nat → List Char → Option (Nat × List Char)
  | 0, rest => some (acc, rest)
  | n + 1, [] => (fun _ => none) n
  | n + 1, c :: rest =>
    if c.isDigit then takeFixedDigits (acc * 10 + (c.toNat - 48)) n rest
    else none

def expectChar (c : Char) : List Char → Option (List Char)
  | [] => none
  | d :: rest => if d = c then some rest else none

structure IsoFields where
  year : Nat
  month : Nat
  day : Nat
  hour : Nat
  minute : Nat
  second : Nat
  millis : Nat
deriving DecidableEq

def parseIsoFields (s : String) : Option IsoFields := do
  let (y, rest) ← takeFixedDigits 0 4 s.data
  let rest ← expectChar '-' rest
  let (mo, rest) ← takeFixedDigits 0 2 rest
  let rest ← expectChar '-' rest
  let (d, rest) ← takeFixedDigits 0 2 rest
  if ¬ (1 ≤ mo ∧ mo ≤ 12 ∧ 1 ≤ d ∧ d ≤ 31) then none
  else
    match rest with
    | [] => some ⟨y, mo, d, 0, 0, 0, 0⟩
    | _ => do
      let rest ← expectChar 'T' rest
      let (h, rest) ← takeFixedDigits 0 2 rest
      let rest ← expectChar ':' rest
      let (mi, rest) ← takeFixedDigits 0 2 rest
      let rest ← expectChar ':' rest
      let (sec, rest) ← takeFixedDigits 0 2 rest
      if ¬ (h ≤ 23 ∧ mi ≤ 59 ∧ sec ≤ 59) then none
      else
        match rest with
        | ['Z'] => some ⟨y, mo, d, h, mi, sec, 0⟩
        | '.' :: rest => do
          let (ms, rest) ← takeFixedDigits 0 3 rest
          match rest with
          | ['Z'] => some ⟨y, mo, d, h, mi, sec, ms⟩
          | _ => none
        | _ => none

def padNum (width n : Nat) : String :=
  let digits := (Nat.toDigits 10 n).length
  String.mk (List.replicate (width - digits) '0') ++ toString n

def formatIso (f : IsoFields) : String :=
  padNum 4 f.year ++ "-" ++ padNum 2 f.month ++ "-" ++ padNum 2 f.day ++ "T" ++
    padNum 2 f.hour ++ ":" ++ padNum 2 f.minute ++ ":" ++ padNum 2 f.second ++
    "." ++ padNum 3 f.millis ++ "Z"

def toIsoTimestamp (v : Option JsonVal) : Option String :=
  match toStringValue v with
  | none => none
  | some candidate => (parseIsoFields candidate).map formatIso

structure UrlParts where
  scheme : String
  host : String
  rest : String
deriving DecidableEq

def isSchemeChar (c : Char) : Bool :=
  c.isAlpha || c.isDigit || c = '+' || c = '-' || c = '.'

def parseUrlStr (s : String) : Option UrlParts :=
  let scheme := s.data.takeWhile isSchemeChar
  let afterScheme := s.data.dropWhile isSchemeChar
  match scheme, afterScheme with
  | [], _ => none
  | c :: _, ':' :: '/' :: '/' :: hostOn =>
    if ¬ c.isAlpha then none
    else
      let host := hostOn.takeWhile (fun d => d ≠ '/')
      let rest := hostOn.dropWhile (fun d => d ≠ '/')
      if host.isEmpty then none
      else some { scheme := String.mk scheme,
                  host := String.mk (host.map Char.toLower),
                  rest := if rest.isEmpty then "/" else String.mk rest }
  | _, _ => none

def urlToString (u : UrlParts) : String :=
  u.scheme ++ "://" ++ u.host ++ u.rest

def normalizeUrl (v : Option JsonVal) : Option String :=
  match toStringValue v with
  | none => none
  | some candidate => (parseUrlStr candidate).map urlToString

def isSlugChar (c : Char) : Bool :=
  ('a' ≤ c && c ≤ 'z') || ('0' ≤ c && c ≤ '9')

def collapseDashes : List Char → List Char
  | [] => []
  | [c] => [c]
  | c :: d :: rest =>
    if c = '-' ∧ d = '-' then collapseDashes (d :: rest)
    else c :: collapseDashes (d :: rest)

def dropLeadDash : List Char → List Char
  | '-' :: rest => rest
  | l => l

def slugify (value : String) : String :=
  let mapped := value.data.map (fun c => if isSlugChar (Char.toLower c) then Char.toLower c else '-')
  let collapsed := collapseDashes mapped
  let stripped := (dropLeadDash (dropLeadDash collapsed).reverse).reverse
  let sliced := stripped.take 80
  if sliced.isEmpty then "unknown-source" else String.mk sliced

def deriveSourceId (sourceName : Option String) (sourceUrl : Option String) :
    Option String :=
  match sourceName with
  | some n => some (slugify n)
  | none =>
    match sourceUrl with
    | none => none
    | some u =>
      match parseUrlStr u with
      | some parts => some (slugify parts.host)
      | none => none

def getObjectValue (fields : List (String × JsonVal)) : List String → Option JsonVal
  | [] => none
  | k :: ks =>
    match fields.lookup k with
    | some v => some v
    | none => getObjectValue fields ks

structure SyncCandidate where
  item : UpsertItemInput
  source : UpsertSourceInput
  cursor : Option String
deriving DecidableEq

def normalizeSyncCandidate (raw : JsonVal) : Option SyncCandidate :=
  match raw with
  | .obj record =>
    let title := toStringValue (getObjectValue record ["title"])
    let url := normalizeUrl (getObjectValue record ["url", "link"])
    match title, url with
    | some title, some url =>
      let sourceName := toStringValue (getObjectValue record ["source_name", "sourceName", "source"])
      let sourceUrl := normalizeUrl (getObjectValue record ["source_url", "sourceUrl"])
      let sourceId :=
        match toStringValue (getObjectValue record ["source_id", "sourceId"]) with
        | some e => some e
        | none => deriveSourceId sourceName sourceUrl
      match sourceId with
      | none => none
      | some sourceId =>
        let category := parseCategory (getObjectValue record ["category"])
        let sourceType := parseSourceType (getObjectValue record ["source_type", "sourceType", "type"])
        let publishedAt := toIsoTimestamp (getObjectValue record ["published_at", "publishedAt", "pubDate"])
        let item : UpsertItemInput :=
          { source_id := sourceId
            title := title
            url := url
            author := toStringValue (getObjectValue record ["author"])
            published_at := publishedAt
            content_md := toStringValue (getObjectValue record ["content_md", "contentMd"])
            content_text := toStringValue (getObjectValue record ["content_text", "contentText"])
            summary := toStringValue (getObjectValue record ["summary"])
            score := some ((parseNumber (getObjectValue record ["score"])).getD 0)
            status := some (parseStatus (getObjectValue record ["status"]))
            acted_at := toIsoTimestamp (getObjectValue record ["acted_at", "actedAt"]) }
        let source : UpsertSourceInput :=
          { id := sourceId
            name := sourceName.getD sourceId
            url := sourceUrl.getD url
            type := sourceType
            category := category
            enabled := some true }
        let cursor :=
          match toIsoTimestamp (getObjectValue record ["updated_at", "updatedAt"]) with
          | some c => some c
          | none =>
            match toIsoTimestamp (getObjectValue record ["fetched_at", "fetchedAt"]) with
            | some c => some c
            | none => publishedAt
        some { item := item, source := source, cursor := cursor }
    | _, _ => none
  | _ => none

def extractPayloadItems (payload : JsonVal) : List JsonVal :=
  match payload with
  | .arr vs => vs
  | .obj fields =>
    match fields.lookup "items" with
    | some (.arr vs) => vs
    | _ =>
      match fields.lookup "data" with
      | some (.arr vs) => vs
      | some (.obj nested) =>
        match nested.lookup "items" with
        | some (.arr vs) => vs
        | _ => []
      | _ => []
  | _ => []

structure SyncResult where
  lastSync : String
  previousSync : Option String
  itemCount : Nat
  skippedCount : Nat
deriving DecidableEq

structure DbState where
  sources : List SourceRow
  items : ItemsTable
  lastSyncCursor : Option String
deriving DecidableEq

structure SyncResponse where
  status : Nat
  bodyText : String
  payload : JsonVal

def responseOk (r : SyncResponse) : Bool :=
  200 ≤ r.status && r.status < 300

def mapSet (m : List (String × UpsertSourceInput)) (k : String)
    (v : UpsertSourceInput) : List (String × UpsertSourceInput) :=
  if m.any (fun p => p.1 = k) then
    m.map (fun p => if p.1 = k then (k, v) else p)
  else m ++ [(k, v)]

def dedupeSources (candidates : List SyncCandidate) : List UpsertSourceInput :=
  (candidates.foldl (fun m c => mapSet m c.source.id c.source) []).map (fun p => p.2)

def injectExisting (existing : List SourceRow) (src : UpsertSourceInput) :
    UpsertSourceInput :=
  match findSourceRow src.id existing with
  | some ex => { src with enabled := some ex.enabled, added_at := some ex.added_at }
  | none => src

def syncSources (now : String) (existing : List SourceRow) :
    List UpsertSourceInput → List SourceRow → Except String (List SourceRow)
  | [], tbl => .ok tbl
  | src :: rest, tbl =>
    match upsertSource now (injectExisting existing src) tbl with
    | .error e => .error e
    | .ok tbl2 => syncSources now existing rest tbl2

def strLtB (x y : String) : Bool :=
  decide (x.data < y.data)

def cursorStep (c : SyncCandidate) (cur : Option String) : Option String :=
  match c.cursor with
  | none => cur
  | some cc =>
    match cur with
    | none => some cc
    | some cur0 => if strLtB cur0 cc then some cc else some cur0

def syncItems (now : String) :
    List SyncCandidate → ItemsTable × Option String × Nat →
      Except String (ItemsTable × Option String × Nat)
  | [], acc => .ok acc
  | c :: rest, acc =>
    match upsertItem now c.item acc.1 with
    | .error e => .error e
    | .ok items => syncItems now rest (items, cursorStep c acc.2.1, acc.2.2 + 1)

def syncFromVps (st : DbState) (resp : SyncResponse) (now : String) :
    Except String (DbState × SyncResult) :=
  if ¬ responseOk resp then
    .error ("Sync request failed (" ++ toString resp.status ++ "): " ++ resp.bodyText)
  else
    let previousSync := st.lastSyncCursor
    let rawItems := extractPayloadItems resp.payload
    let candidates := rawItems.filterMap normalizeSyncCandidate
    match syncSources now st.sources (dedupeSources candidates) st.sources with
    | .error e => .error e
    | .ok sources =>
      match syncItems now candidates (st.items, none, 0) with
      | .error e => .error e
      | .ok (items, cursor, upsertedCount) =>
        let lastSync := cursor.getD now
        .ok ({ sources := sources, items := items, lastSyncCursor := some lastSync },
             { lastSync := lastSync
               previousSync := previousSync
               itemCount := upsertedCount
               skippedCount := rawItems.length - candidates.length })

def validItemInput (i : UpsertItemInput) : Prop :=
  trimStr i.source_id ≠ "" ∧ trimStr i.url ≠ "" ∧ trimStr i.title ≠ ""

instance (i : UpsertItemInput) : Decidable (validItemInput i) := by
  unfold validItemInput
  infer_instance

def scenarioItem1 : UpsertItemInput :=
  { source_id := "x-com", title := "A", url := "https://x.com/a",
    published_at := some "2024-01-01T00:00:00.000Z", score := some 1 }

def scenarioItem2 : UpsertItemInput :=
  { source_id := "x-com", title := "A2", url := "https://x.com/a",
    published_at := some "2024-01-02T00:00:00.000Z", score := some (1/2) }

def scenarioTable1 : ItemsTable :=
  upsertItemStep "2024-01-01T01:00:00.000Z" scenarioItem1 { rows := [], nextId := 1 }

def scenarioTable2 : ItemsTable :=
  upsertItemStep "2024-01-02T01:00:00.000Z" scenarioItem2 scenarioTable1

def triagedRow : ItemRow :=
  { id := 1, source_id := "x-com", title := "A", url := "https://x.com/a",
    author := some "Bob", published_at := some "2024-01-01T00:00:00.000Z",
    fetched_at := "2024-01-01T01:00:00.000Z", content_md := none,
    content_text := none, summary := some "old summary", score := 1,
    status := .saved, acted_at := some "2024-01-01T02:00:00.000Z" }

def resyncItem : UpsertItemInput :=
  { source_id := "x-com", title := "A refreshed", url := "https://x.com/a",
    content_md := some "# body", score := some 0 }

def charsHasInfix (needle : List Char) : List Char → Bool
  | [] => needle.isEmpty
  | c :: rest => needle.isPrefixOf (c :: rest) || charsHasInfix needle rest

def strHasInfix (needle hay : String) : Bool :=
  charsHasInfix needle.data hay.data

def noSourceItem : UpsertItemInput :=
  { source_id := "", title := "T", url := "https://x.com/a" }

def disabledSource : SourceRow :=
  { id := "x-com", name := "X", url := "https://x.com/", type := .rss,
    category := .tech, enabled := false, added_at := "2023-12-01T00:00:00.000Z" }

def resyncSource : UpsertSourceInput :=
  { id := "x-com", name := "X feed", url := "https://x.com/feed", type := .rss,
    category := .tech, enabled := some true,
    added_at := some "2024-05-05T00:00:00.000Z" }

def badResp : SyncResponse :=
  { status := 503, bodyText := "upstream down",
    payload := .arr [.obj [("title", .s "A"), ("url", .s "https://x.com/a"),
      ("source_id", .s "x-com")]] }

def preSyncState : DbState :=
  { sources := [disabledSource], items := { rows := [], nextId := 1 },
    lastSyncCursor := some "2024-06-01T00:00:00.000Z" }

def orphanRecord : JsonVal :=
  .obj [("title", .s "T"), ("url", .s "https://news.example.com/post")]

def namedSourceFields : List (String × JsonVal) :=
  [("title", .s "T"), ("url", .s "https://news.example.com/post"),
   ("source", .s "News Site")]

def c9State : DbState :=
  { sources := [], items := { rows := [], nextId := 1 },
    lastSyncCursor := some "2024-06-01T00:00:00.000Z" }

def c9Resp : SyncResponse :=
  { status := 200, bodyText := "",
    payload := .arr [
      .obj [("title", .s "A"), ("url", .s "https://x.com/a"), ("source_id", .s "x-com"),
            ("updated_at", .s "2024-07-01T00:00:00Z")],
      .obj [("url", .s "https://x.com/b")]] }

def c9out : DbState × SyncResult :=
  (syncFromVps c9State c9Resp "2024-06-02T00:00:00.000Z").toOption.getD
    ({ sources := [], items := { rows := [], nextId := 1 }, lastSyncCursor := none },
     { lastSync := "", previousSync := none, itemCount := 0, skippedCount := 0 })

def staleCursorState : DbState :=
  { sources := [], items := { rows := [], nextId := 1 },
    lastSyncCursor := some "2024-06-01T00:00:00.000Z" }

def staleCursorResp : SyncResponse :=
  { status := 200, bodyText := "",
    payload := .arr [.obj [("title", .s "A"), ("url", .s "https://x.com/a"),
      ("source_id", .s "x-com"), ("updated_at", .s "2020-01-01T00:00:00Z")]] }

def staleCursorOut : DbState × SyncResult :=
  (syncFromVps staleCursorState staleCursorResp "2024-06-02T00:00:00.000Z").toOption.getD
    ({ sources := [], items := { rows := [], nextId := 1 }, lastSyncCursor := none },
     { lastSync := "", previousSync := none, itemCount := 0, skippedCount := 0 })

def c2State : DbState :=
  { sources := [], items := { rows := [], nextId := 1 },
    lastSyncCursor := some "2024-06-01T00:00:00.000Z" }

def c2Resp : SyncResponse :=
  { status := 200, bodyText := "",
    payload := .arr [
      .obj [("title", .s "A"), ("url", .s "https://x.com/a"), ("source_id", .s "x-com"),
            ("updated_at", .s "2024-07-03T00:00:00Z")],
      .obj [("title", .s "B"), ("url", .s "https://x.com/b"), ("source_id", .s "x-com"),
            ("updated_at", .s "2024-07-01T00:00:00Z")]] }

def c2Out : DbState × SyncResult :=
  (syncFromVps c2State c2Resp "2024-07-04T00:00:00.000Z").toOption.getD
    ({ sources := [], items := { rows := [], nextId := 1 }, lastSyncCursor := none },
     { lastSync := "", previousSync := none, itemCount := 0, skippedCount := 0 })

def sourcePres (s0 : SourceRow) (tbl : List SourceRow) : Prop :=
  ∃ s', findSourceRow s0.id tbl = some s' ∧
    s'.enabled = s0.enabled ∧ s'.added_at = s0.added_at

def c8Resp : SyncResponse :=
  { status := 200, bodyText := "",
    payload := .arr [.obj [("title", .s "A"), ("url", .s "https://x.com/a"),
      ("source_id", .s "x-com"), ("source", .s "X revamped")]] }

def c8Out : DbState × SyncResult :=
  (syncFromVps preSyncState c8Resp "2024-06-02T00:00:00.000Z").toOption.getD
    ({ sources := [], items := { rows := [], nextId := 1 }, lastSyncCursor := none },
     { lastSync := "", previousSync := none, itemCount := 0, skippedCount := 0 })

def eraseFetched (r : ItemRow) : ItemRow :=
  { r with fetched_at := "" }

structure MergeEff where
  source_id : String
  title : String
  author : Option String
  published_at : Option String
  content_md : Option String
  content_text : Option String
  summary : Option String
  score : Rat

def effOfInput (i : UpsertItemInput) : MergeEff :=
  { source_id := i.source_id, title := i.title, author := i.author,
    published_at := i.published_at, content_md := i.content_md,
    content_text := i.content_text, summary := i.summary,
    score := i.score.getD 0 }

def seqEff (e f : MergeEff) : MergeEff :=
  { source_id := f.source_id, title := f.title,
    author := coalesce f.author e.author,
    published_at := coalesce f.published_at e.published_at,
    content_md := coalesce f.content_md e.content_md,
    content_text := coalesce f.content_text e.content_text,
    summary := coalesce f.summary e.summary,
    score := max e.score f.score }

def applyEff (now : String) (e : MergeEff) (r : ItemRow) : ItemRow :=
  { r with
    source_id := e.source_id, title := e.title,
    author := coalesce e.author r.author,
    published_at := coalesce e.published_at r.published_at,
    content_md := coalesce e.content_md r.content_md,
    content_text := coalesce e.content_text r.content_text,
    summary := coalesce e.summary r.summary,
    score := max r.score e.score,
    fetched_at := now }

def listEff (i : UpsertItemInput) (s : List UpsertItemInput) : MergeEff :=
  s.foldl (fun e j => seqEff e (effOfInput j)) (effOfInput i)

def foldC (now : String) (s : List UpsertItemInput) (r : ItemRow) : ItemRow :=
  s.foldl (fun r j => conflictUpdate now j r) r

def matchFold (now : String) (P : List UpsertItemInput) (r : ItemRow) : ItemRow :=
  P.foldl (fun r i => if r.url = i.url then conflictUpdate now i r else r) r

def matchItems (u : String) (P : List UpsertItemInput) : List UpsertItemInput :=
  P.filter (fun i => u = i.url)

def presentUrl (u : String) (t : ItemsTable) : Bool :=
  t.rows.any (fun r => r.url = u)

def passFold (now : String) (P : List UpsertItemInput) (t : ItemsTable) : ItemsTable :=
  P.foldl (fun t i => upsertItemStep now i t) t

def applyItems (now : String) : List UpsertItemInput → ItemsTable → Except String ItemsTable
  | [], t => .ok t
  | i :: rest, t =>
    match upsertItem now i t with
    | .error e => .error e
    | .ok t2 => applyItems now rest t2

def satFor (now1 : String) (L : List UpsertItemInput) (r : ItemRow) : Prop :=
  matchItems r.url L = [] ∨ ∃ b, r = foldC now1 (matchItems r.url L) b

def c4Pass1 : ItemsTable :=
  passFold "2024-01-01T01:00:00.000Z" [scenarioItem1, scenarioItem2]
    { rows := [], nextId := 1 }

def c4Pass2 : ItemsTable :=
  passFold "2024-01-02T01:00:00.000Z" [scenarioItem1, scenarioItem2] c4Pass1

/-! ### Theorems -/

theorem find_map_pres {α : Type} (g : α → α) (p : α → Bool)
    (h : ∀ a, p (g a) = p a) :
    ∀ l : List α, (l.map g).find? p = (l.find? p).map g := by
  intro l
  induction l with
  | nil => rfl
  | cons a l ih =>
    by_cases hpa : p a
    · simp [List.find?, h, hpa]
    · simp [List.find?, h, hpa, ih]

theorem countP_map_pres {α : Type} (g : α → α) (p : α → Bool)
    (h : ∀ a, p (g a) = p a) :
    ∀ l : List α, (l.map g).countP p = l.countP p := by
  intro l
  induction l with
  | nil => rfl
  | cons a l ih => simp [List.countP_cons, h, ih]

theorem any_map_pres {α : Type} (g : α → α) (p : α → Bool)
    (h : ∀ a, p (g a) = p a) :
    ∀ l : List α, (l.map g).any p = l.any p := by
  intro l
  induction l with
  | nil => rfl
  | cons a l ih => simp [List.any_cons, h, ih]

theorem find_append_some {α : Type} (p : α → Bool) {l : List α} {x : α}
    (h : l.find? p = some x) (l' : List α) : (l ++ l').find? p = some x := by
  induction l with
  | nil => simp [List.find?] at h
  | cons a l ih =>
    rw [List.cons_append]
    simp only [List.find?] at h ⊢
    cases hpa : p a with
    | true => rw [hpa] at h; exact h
    | false => rw [hpa] at h; exact ih h

theorem if_lt_max (a b : Rat) : (if a < b then b else a) = max a b := by
  rcases le_or_lt b a with h | h
  · simp [not_lt.mpr h, max_eq_left h]
  · simp [h, max_eq_right h.le]

theorem upsertItem_ok_of_valid (now : String) (i : UpsertItemInput) (t : ItemsTable)
    (hv : validItemInput i) :
    upsertItem now i t = .ok (upsertItemStep now i t) := by
  obtain ⟨h1, h2, h3⟩ := hv
  simp [upsertItem, h1, h2, h3]

theorem conflictUpdate_url (now : String) (i : UpsertItemInput) (r : ItemRow) :
    (conflictUpdate now i r).url = r.url := rfl

theorem sel_pres_url (now : String) (i : UpsertItemInput) (u : String) :
    ∀ r : ItemRow,
      (decide ((if r.url = i.url then conflictUpdate now i r else r).url = u)) =
        decide (r.url = u) := by
  intro r
  by_cases h : r.url = i.url <;> simp [h, conflictUpdate_url]

theorem upsertItemStep_count_one (now : String) (i : UpsertItemInput) (t : ItemsTable)
    (hU : countUrl i.url t.rows ≤ 1) :
    countUrl i.url (upsertItemStep now i t).rows = 1 := by
  unfold countUrl at hU ⊢
  unfold upsertItemStep
  by_cases hpres : t.rows.any (fun r => r.url = i.url)
  · simp only [hpres, if_true]
    have hcnt := countP_map_pres
      (fun r => if r.url = i.url then conflictUpdate now i r else r)
      (fun r => decide (r.url = i.url)) (sel_pres_url now i i.url) t.rows
    rw [hcnt]
    have hpos : 0 < t.rows.countP (fun r => decide (r.url = i.url)) := by
      rw [List.countP_pos_iff]
      simpa using hpres
    omega
  · simp only [Bool.not_eq_true] at hpres
    simp only [hpres, Bool.false_eq_true, if_false]
    have hzero : t.rows.countP (fun r => decide (r.url = i.url)) = 0 := by
      rw [List.countP_eq_zero]
      intro a ha
      rw [List.any_eq_false] at hpres
      exact hpres a ha
    rw [List.countP_append, hzero]
    simp [newItemRow]

theorem find_append_none {α : Type} (p : α → Bool) {l : List α}
    (h : l.find? p = none) (l' : List α) : (l ++ l').find? p = l'.find? p := by
  induction l with
  | nil => rfl
  | cons a l ih =>
    rw [List.cons_append]
    simp only [List.find?] at h ⊢
    cases hpa : p a with
    | true => rw [hpa] at h; exact absurd h (by simp)
    | false => rw [hpa] at h; exact ih h

theorem find_after_upsertStep (now : String) (i : UpsertItemInput) (t : ItemsTable)
    (r0 : ItemRow) (h : findItemRow i.url t.rows = some r0) :
    findItemRow i.url (upsertItemStep now i t).rows =
      some (conflictUpdate now i r0) := by
  unfold findItemRow at h
  have hmem := List.mem_of_find?_eq_some h
  have hp0 := List.find?_some h
  have hp : r0.url = i.url := by simpa using hp0
  have hpres : t.rows.any (fun r => r.url = i.url) = true := by
    rw [List.any_eq_true]
    exact ⟨r0, hmem, by simpa using hp⟩
  unfold upsertItemStep
  simp only [hpres, if_true]
  unfold findItemRow
  rw [find_map_pres _ _ (sel_pres_url now i i.url), h]
  simp [hp]

theorem find_after_upsertStep_new (now : String) (i : UpsertItemInput) (t : ItemsTable)
    (h : t.rows.any (fun r => r.url = i.url) = false) :
    findItemRow i.url (upsertItemStep now i t).rows =
      some (newItemRow now t.nextId i) := by
  unfold upsertItemStep
  simp only [h, Bool.false_eq_true, if_false]
  unfold findItemRow
  have hnone : t.rows.find? (fun r => decide (r.url = i.url)) = none := by
    rw [List.find?_eq_none]
    intro a ha
    rw [List.any_eq_false] at h
    simpa using h a ha
  rw [find_append_none _ hnone]
  simp [List.find?, newItemRow]

theorem upsertItemStep_find_some (now : String) (i : UpsertItemInput) (t : ItemsTable) :
    ∃ r, findItemRow i.url (upsertItemStep now i t).rows = some r := by
  by_cases hpres : t.rows.any (fun r => r.url = i.url)
  · have : ∃ r0, findItemRow i.url t.rows = some r0 := by
      unfold findItemRow
      rw [← Option.isSome_iff_exists, List.find?_isSome]
      simpa using hpres
    obtain ⟨r0, h0⟩ := this
    exact ⟨_, find_after_upsertStep now i t r0 h0⟩
  · simp only [Bool.not_eq_true] at hpres
    exact ⟨_, find_after_upsertStep_new now i t hpres⟩

theorem upsertItem_merge_same_url
    (now1 now2 : String) (i1 i2 : UpsertItemInput) (t t1 t2 : ItemsTable)
    (hurl : i1.url = i2.url)
    (hv1 : validItemInput i1) (hv2 : validItemInput i2)
    (hU : countUrl i2.url t.rows ≤ 1)
    (h1 : upsertItem now1 i1 t = .ok t1)
    (h2 : upsertItem now2 i2 t1 = .ok t2) :
    countUrl i2.url t2.rows = 1 ∧
    ∃ r1 r2, findItemRow i2.url t1.rows = some r1 ∧
      findItemRow i2.url t2.rows = some r2 ∧
      r2.title = i2.title ∧ r2.source_id = i2.source_id ∧
      r2.score = max r1.score (i2.score.getD 0) := by
  rw [upsertItem_ok_of_valid now1 i1 t hv1] at h1
  rw [upsertItem_ok_of_valid now2 i2 t1 hv2] at h2
  injection h1 with h1
  injection h2 with h2
  subst h1
  subst h2
  have hU1 : countUrl i1.url t.rows ≤ 1 := by rw [hurl]; exact hU
  have hcount1 : countUrl i1.url (upsertItemStep now1 i1 t).rows = 1 :=
    upsertItemStep_count_one now1 i1 t hU1
  obtain ⟨r1, hr1⟩ := upsertItemStep_find_some now1 i1 t
  have hr1' : findItemRow i2.url (upsertItemStep now1 i1 t).rows = some r1 := by
    rw [← hurl]; exact hr1
  have hc1' : countUrl i2.url (upsertItemStep now1 i1 t).rows = 1 := by
    rw [← hurl]; exact hcount1
  have hcount2 : countUrl i2.url (upsertItemStep now2 i2 (upsertItemStep now1 i1 t)).rows = 1 :=
    upsertItemStep_count_one now2 i2 _ (by omega)
  have hr2 := find_after_upsertStep now2 i2 (upsertItemStep now1 i1 t) r1 hr1'
  refine ⟨hcount2, r1, conflictUpdate now2 i2 r1, hr1', hr2, rfl, rfl, ?_⟩
  simp only [conflictUpdate]
  exact if_lt_max r1.score (i2.score.getD 0)

theorem upsertItem_merge_same_url_witness :
    (scenarioItem1.url = scenarioItem2.url ∧
      validItemInput scenarioItem1 ∧ validItemInput scenarioItem2 ∧
      countUrl scenarioItem2.url ([] : List ItemRow) ≤ 1 ∧
      upsertItem "2024-01-01T01:00:00.000Z" scenarioItem1 { rows := [], nextId := 1 } =
        .ok scenarioTable1 ∧
      upsertItem "2024-01-02T01:00:00.000Z" scenarioItem2 scenarioTable1 = .ok scenarioTable2) ∧
    (countUrl scenarioItem2.url scenarioTable2.rows = 1 ∧
      ∃ r1 r2, findItemRow scenarioItem2.url scenarioTable1.rows = some r1 ∧
        findItemRow scenarioItem2.url scenarioTable2.rows = some r2 ∧
        r2.title = scenarioItem2.title ∧ r2.source_id = scenarioItem2.source_id ∧
        r2.score = max r1.score (scenarioItem2.score.getD 0)) :=
  ⟨⟨by decide, by decide, by decide, by decide, rfl, rfl⟩,
    upsertItem_merge_same_url "2024-01-01T01:00:00.000Z" "2024-01-02T01:00:00.000Z"
      scenarioItem1 scenarioItem2 { rows := [], nextId := 1 } scenarioTable1 scenarioTable2
      (by decide) (by decide) (by decide) (by decide) rfl rfl⟩

theorem coalesce_isSome (x : Option String) {y : Option String}
    (h : y.isSome) : (coalesce x y).isSome := by
  cases x <;> simp [coalesce, h]

theorem upsertItem_preserves_triage_and_coalesces
    (now : String) (i : UpsertItemInput) (t t' : ItemsTable) (r0 : ItemRow)
    (hfound : findItemRow i.url t.rows = some r0)
    (hok : upsertItem now i t = .ok t') :
    ∃ r', findItemRow i.url t'.rows = some r' ∧
      r'.status = r0.status ∧ r'.acted_at = r0.acted_at ∧
      r'.author = coalesce i.author r0.author ∧
      r'.published_at = coalesce i.published_at r0.published_at ∧
      r'.content_md = coalesce i.content_md r0.content_md ∧
      r'.content_text = coalesce i.content_text r0.content_text ∧
      r'.summary = coalesce i.summary r0.summary ∧
      (r0.author.isSome → r'.author.isSome) ∧
      (r0.published_at.isSome → r'.published_at.isSome) ∧
      (r0.content_md.isSome → r'.content_md.isSome) ∧
      (r0.content_text.isSome → r'.content_text.isSome) ∧
      (r0.summary.isSome → r'.summary.isSome) := by
  have hstep : t' = upsertItemStep now i t := by
    unfold upsertItem at hok
    split_ifs at hok with h1 h2 h3
    cases hok
    rfl
  subst hstep
  refine ⟨conflictUpdate now i r0, find_after_upsertStep now i t r0 hfound,
    rfl, rfl, rfl, rfl, rfl, rfl, rfl,
    fun h => coalesce_isSome _ h, fun h => coalesce_isSome _ h,
    fun h => coalesce_isSome _ h, fun h => coalesce_isSome _ h,
    fun h => coalesce_isSome _ h⟩

theorem upsertItem_preserves_triage_and_coalesces_witness :
    (findItemRow resyncItem.url [triagedRow] = some triagedRow ∧
      upsertItem "2024-01-03T00:00:00.000Z" resyncItem { rows := [triagedRow], nextId := 2 } =
        .ok (upsertItemStep "2024-01-03T00:00:00.000Z" resyncItem
              { rows := [triagedRow], nextId := 2 })) ∧
    (∃ r', findItemRow resyncItem.url
        (upsertItemStep "2024-01-03T00:00:00.000Z" resyncItem
          { rows := [triagedRow], nextId := 2 }).rows = some r' ∧
      r'.status = triagedRow.status ∧ r'.acted_at = triagedRow.acted_at ∧
      r'.author = coalesce resyncItem.author triagedRow.author ∧
      r'.published_at = coalesce resyncItem.published_at triagedRow.published_at ∧
      r'.content_md = coalesce resyncItem.content_md triagedRow.content_md ∧
      r'.content_text = coalesce resyncItem.content_text triagedRow.content_text ∧
      r'.summary = coalesce resyncItem.summary triagedRow.summary ∧
      (triagedRow.author.isSome → r'.author.isSome) ∧
      (triagedRow.published_at.isSome → r'.published_at.isSome) ∧
      (triagedRow.content_md.isSome → r'.content_md.isSome) ∧
      (triagedRow.content_text.isSome → r'.content_text.isSome) ∧
      (triagedRow.summary.isSome → r'.summary.isSome)) :=
  ⟨⟨by decide, rfl⟩,
    upsertItem_preserves_triage_and_coalesces "2024-01-03T00:00:00.000Z" resyncItem
      { rows := [triagedRow], nextId := 2 } _ triagedRow (by decide) rfl⟩

theorem upsertItem_error_omits_url :
    upsertItem "2024-01-01T00:00:00.000Z" noSourceItem { rows := [], nextId := 1 } =
      .error "upsertItem requires source_id" ∧
    strHasInfix noSourceItem.url "upsertItem requires source_id" = false :=
  ⟨rfl, by decide⟩

theorem upsertItem_validation_error (now : String) (i : UpsertItemInput) (t : ItemsTable)
    (h : trimStr i.source_id = "" ∨ trimStr i.url = "" ∨ trimStr i.title = "") :
    upsertItem now i t =
      .error (if trimStr i.source_id = "" then "upsertItem requires source_id"
        else if trimStr i.url = "" then "upsertItem requires url"
        else "upsertItem requires title") := by
  unfold upsertItem
  rcases h with h | h | h
  · simp [h]
  · by_cases h1 : trimStr i.source_id = "" <;> simp [h1, h]
  · by_cases h1 : trimStr i.source_id = "" <;>
      by_cases h2 : trimStr i.url = "" <;> simp [h1, h2, h]

theorem upsertItem_validation_error_witness :
    (trimStr noSourceItem.source_id = "" ∨ trimStr noSourceItem.url = "" ∨
      trimStr noSourceItem.title = "") ∧
    upsertItem "2024-02-02T00:00:00.000Z" noSourceItem { rows := [], nextId := 1 } =
      .error (if trimStr noSourceItem.source_id = "" then "upsertItem requires source_id"
        else if trimStr noSourceItem.url = "" then "upsertItem requires url"
        else "upsertItem requires title") :=
  ⟨by decide,
    upsertItem_validation_error "2024-02-02T00:00:00.000Z" noSourceItem
      { rows := [], nextId := 1 } (by decide)⟩

theorem source_sel_pres_id (s : UpsertSourceInput) (k : String) :
    ∀ r : SourceRow,
      (decide ((if r.id = s.id then sourceConflictUpdate s r else r).id = k)) =
        decide (r.id = k) := by
  intro r
  by_cases h : r.id = s.id <;> simp [h, sourceConflictUpdate]

theorem upsertSource_preserves_added_at
    (now : String) (s : UpsertSourceInput) (tbl tbl' : List SourceRow) (r0 : SourceRow)
    (hfound : findSourceRow s.id tbl = some r0)
    (hok : upsertSource now s tbl = .ok tbl') :
    ∃ r', findSourceRow s.id tbl' = some r' ∧
      r'.added_at = r0.added_at ∧
      r'.name = s.name ∧ r'.url = s.url ∧ r'.type = s.type ∧
      r'.category = s.category ∧ r'.enabled = enabledBit s.enabled := by
  unfold findSourceRow at hfound
  have hmem := List.mem_of_find?_eq_some hfound
  have hp0 := List.find?_some hfound
  have hp : r0.id = s.id := by simpa using hp0
  have hpres : tbl.any (fun r => r.id = s.id) = true := by
    rw [List.any_eq_true]
    exact ⟨r0, hmem, by simpa using hp⟩
  have hmap : tbl' = tbl.map (fun r => if r.id = s.id then sourceConflictUpdate s r else r) := by
    unfold upsertSource at hok
    split_ifs at hok with h1 h2 h3 h4
    cases hok
    rfl
  subst hmap
  refine ⟨sourceConflictUpdate s r0, ?_, rfl, rfl, rfl, rfl, rfl, rfl⟩
  unfold findSourceRow
  rw [find_map_pres _ _ (source_sel_pres_id s s.id), hfound]
  simp [hp]

theorem upsertSource_preserves_added_at_witness :
    (findSourceRow resyncSource.id [disabledSource] = some disabledSource ∧
      upsertSource "2024-05-05T01:00:00.000Z" resyncSource [disabledSource] =
        .ok [sourceConflictUpdate resyncSource disabledSource]) ∧
    (∃ r', findSourceRow resyncSource.id [sourceConflictUpdate resyncSource disabledSource] = some r' ∧
      r'.added_at = disabledSource.added_at ∧
      r'.name = resyncSource.name ∧ r'.url = resyncSource.url ∧
      r'.type = resyncSource.type ∧ r'.category = resyncSource.category ∧
      r'.enabled = enabledBit resyncSource.enabled) :=
  ⟨⟨by decide, rfl⟩,
    upsertSource_preserves_added_at "2024-05-05T01:00:00.000Z" resyncSource
      [disabledSource] [sourceConflictUpdate resyncSource disabledSource]
      disabledSource (by decide) rfl⟩

theorem syncFromVps_non2xx_aborts (st : DbState) (resp : SyncResponse) (now : String)
    (h : responseOk resp = false) :
    syncFromVps st resp now =
      .error ("Sync request failed (" ++ toString resp.status ++ "): " ++ resp.bodyText) := by
  unfold syncFromVps
  simp only [h, Bool.false_eq_true, not_false_eq_true, if_true]

theorem syncFromVps_non2xx_aborts_witness :
    responseOk badResp = false ∧
    syncFromVps preSyncState badResp "2024-06-02T00:00:00.000Z" =
      .error ("Sync request failed (" ++ toString badResp.status ++ "): " ++ badResp.bodyText) :=
  ⟨by decide,
    syncFromVps_non2xx_aborts preSyncState badResp "2024-06-02T00:00:00.000Z" (by decide)⟩

theorem normalize_item_url_not_used :
    normalizeSyncCandidate orphanRecord = none ∧
    deriveSourceId none (some "https://news.example.com/post") =
      some "news-example-com" :=
  ⟨by decide, by decide⟩

theorem normalize_source_id_resolution (fields : List (String × JsonVal)) (T U : String)
    (ht : toStringValue (getObjectValue fields ["title"]) = some T)
    (hu : normalizeUrl (getObjectValue fields ["url", "link"]) = some U) :
    (∀ e, toStringValue (getObjectValue fields ["source_id", "sourceId"]) = some e →
      (normalizeSyncCandidate (.obj fields)).map (fun c => c.item.source_id) = some e) ∧
    (toStringValue (getObjectValue fields ["source_id", "sourceId"]) = none →
      ∀ d, deriveSourceId
          (toStringValue (getObjectValue fields ["source_name", "sourceName", "source"]))
          (normalizeUrl (getObjectValue fields ["source_url", "sourceUrl"])) = some d →
        (normalizeSyncCandidate (.obj fields)).map (fun c => c.item.source_id) = some d) ∧
    (toStringValue (getObjectValue fields ["source_id", "sourceId"]) = none →
      deriveSourceId
          (toStringValue (getObjectValue fields ["source_name", "sourceName", "source"]))
          (normalizeUrl (getObjectValue fields ["source_url", "sourceUrl"])) = none →
      normalizeSyncCandidate (.obj fields) = none) ∧
    (∀ n u, deriveSourceId (some n) u = some (slugify n)) ∧
    (∀ u p, parseUrlStr u = some p →
      deriveSourceId none (some u) = some (slugify p.host)) ∧
    deriveSourceId none (none : Option String) = none := by
  refine ⟨?_, ?_, ?_, ?_, ?_, rfl⟩
  · intro e he
    simp only [normalizeSyncCandidate, ht, hu, he, Option.map]
  · intro hnone d hd
    simp only [normalizeSyncCandidate, ht, hu, hnone, hd, Option.map]
  · intro hnone hdnone
    simp only [normalizeSyncCandidate, ht, hu, hnone, hdnone]
  · intro n u
    rfl
  · intro u p hp
    simp only [deriveSourceId, hp]

theorem normalize_source_id_resolution_witness :
    (toStringValue (getObjectValue namedSourceFields ["title"]) = some "T" ∧
      normalizeUrl (getObjectValue namedSourceFields ["url", "link"]) =
        some "https://news.example.com/post") ∧
    ((∀ e, toStringValue (getObjectValue namedSourceFields ["source_id", "sourceId"]) = some e →
      (normalizeSyncCandidate (.obj namedSourceFields)).map (fun c => c.item.source_id) = some e) ∧
    (toStringValue (getObjectValue namedSourceFields ["source_id", "sourceId"]) = none →
      ∀ d, deriveSourceId
          (toStringValue (getObjectValue namedSourceFields ["source_name", "sourceName", "source"]))
          (normalizeUrl (getObjectValue namedSourceFields ["source_url", "sourceUrl"])) = some d →
        (normalizeSyncCandidate (.obj namedSourceFields)).map (fun c => c.item.source_id) = some d) ∧
    (toStringValue (getObjectValue namedSourceFields ["source_id", "sourceId"]) = none →
      deriveSourceId
          (toStringValue (getObjectValue namedSourceFields ["source_name", "sourceName", "source"]))
          (normalizeUrl (getObjectValue namedSourceFields ["source_url", "sourceUrl"])) = none →
      normalizeSyncCandidate (.obj namedSourceFields) = none) ∧
    (∀ n u, deriveSourceId (some n) u = some (slugify n)) ∧
    (∀ u p, parseUrlStr u = some p →
      deriveSourceId none (some u) = some (slugify p.host)) ∧
    deriveSourceId none (none : Option String) = none) :=
  ⟨⟨by decide, by decide⟩,
    normalize_source_id_resolution namedSourceFields "T" "https://news.example.com/post"
      (by decide) (by decide)⟩

theorem syncItems_count (now : String) :
    ∀ (cs : List SyncCandidate) (acc : ItemsTable × Option String × Nat)
      (tbl' : ItemsTable) (cur : Option String) (cnt : Nat),
      syncItems now cs acc = .ok (tbl', cur, cnt) → cnt = acc.2.2 + cs.length := by
  intro cs
  induction cs with
  | nil =>
    intro acc tbl' cur cnt h
    unfold syncItems at h
    injection h with h
    subst h
    rfl
  | cons c rest ih =>
    intro acc tbl' cur cnt h
    unfold syncItems at h
    cases hup : upsertItem now c.item acc.1 with
    | error e => rw [hup] at h; cases h
    | ok items =>
      rw [hup] at h
      have := ih _ _ _ _ h
      simp only [List.length_cons] at this ⊢
      omega

theorem length_filterMap_countP {α β : Type} (f : α → Option β) :
    ∀ l : List α, (l.filterMap f).length = l.countP (fun a => (f a).isSome) := by
  intro l
  induction l with
  | nil => rfl
  | cons a l ih =>
    cases hfa : f a <;>
      simp [List.filterMap_cons, hfa, List.countP_cons, ih]

theorem countP_isSome_add_isNone {α β : Type} (f : α → Option β) :
    ∀ l : List α,
      l.countP (fun a => (f a).isSome) + l.countP (fun a => (f a).isNone) = l.length := by
  intro l
  induction l with
  | nil => rfl
  | cons a l ih =>
    cases hfa : f a <;> simp [List.countP_cons, hfa] <;> omega

theorem normalize_reject_and_counts
    (st : DbState) (resp : SyncResponse) (now : String) (st' : DbState) (res : SyncResult)
    (hok : syncFromVps st resp now = .ok (st', res)) :
    (∀ fields, (toStringValue (getObjectValue fields ["title"]) = none ∨
        normalizeUrl (getObjectValue fields ["url", "link"]) = none) →
      normalizeSyncCandidate (.obj fields) = none) ∧
    res.itemCount = (extractPayloadItems resp.payload).countP
        (fun r => (normalizeSyncCandidate r).isSome) ∧
    res.skippedCount = (extractPayloadItems resp.payload).countP
        (fun r => (normalizeSyncCandidate r).isNone) := by
  refine ⟨?_, ?_⟩
  · intro fields h
    rcases h with h | h
    · simp only [normalizeSyncCandidate, h]
    · cases htitle : toStringValue (getObjectValue fields ["title"]) <;>
        simp only [normalizeSyncCandidate, htitle, h]
  · unfold syncFromVps at hok
    by_cases hresp : responseOk resp
    · simp only [hresp, not_true_eq_false, if_false] at hok
      cases hs : syncSources now st.sources
          (dedupeSources ((extractPayloadItems resp.payload).filterMap normalizeSyncCandidate))
          st.sources with
      | error e => rw [hs] at hok; cases hok
      | ok sources =>
        rw [hs] at hok
        cases hi : syncItems now
            ((extractPayloadItems resp.payload).filterMap normalizeSyncCandidate)
            (st.items, none, 0) with
        | error e => rw [hi] at hok; cases hok
        | ok out =>
          obtain ⟨items, cursor, cnt⟩ := out
          rw [hi] at hok
          injection hok with hok
          have hres := (congrArg Prod.snd hok).symm
          dsimp only at hres
          have hcnt : cnt =
              ((extractPayloadItems resp.payload).filterMap normalizeSyncCandidate).length := by
            have := syncItems_count now _ _ _ _ _ hi
            simpa using this
          have hflen := length_filterMap_countP normalizeSyncCandidate (extractPayloadItems resp.payload)
          have hsum := countP_isSome_add_isNone normalizeSyncCandidate (extractPayloadItems resp.payload)
          rw [hres]
          constructor
          · show cnt = (extractPayloadItems resp.payload).countP
              (fun r => (normalizeSyncCandidate r).isSome)
            rw [hcnt, hflen]
          · show (extractPayloadItems resp.payload).length -
                ((extractPayloadItems resp.payload).filterMap normalizeSyncCandidate).length =
              (extractPayloadItems resp.payload).countP
                (fun r => (normalizeSyncCandidate r).isNone)
            rw [length_filterMap_countP]
            omega
    · rw [if_pos hresp] at hok
      cases hok

theorem normalize_reject_and_counts_witness :
    syncFromVps c9State c9Resp "2024-06-02T00:00:00.000Z" = .ok c9out ∧
    ((∀ fields, (toStringValue (getObjectValue fields ["title"]) = none ∨
        normalizeUrl (getObjectValue fields ["url", "link"]) = none) →
      normalizeSyncCandidate (.obj fields) = none) ∧
    c9out.2.itemCount = (extractPayloadItems c9Resp.payload).countP
        (fun r => (normalizeSyncCandidate r).isSome) ∧
    c9out.2.skippedCount = (extractPayloadItems c9Resp.payload).countP
        (fun r => (normalizeSyncCandidate r).isNone)) :=
  ⟨rfl, normalize_reject_and_counts c9State c9Resp "2024-06-02T00:00:00.000Z"
    c9out.1 c9out.2 rfl⟩

theorem strLtB_iff (x y : String) : strLtB x y = true ↔ x < y := by
  unfold strLtB
  rw [decide_eq_true_iff]
  constructor
  · intro h
    exact String.lt_iff_toList_lt.mpr h
  · intro h
    exact String.lt_iff_toList_lt.mp h

theorem cursorStep_none_iff (c : SyncCandidate) (cur : Option String) :
    cursorStep c cur = none ↔ c.cursor = none ∧ cur = none := by
  cases hc : c.cursor <;> cases hcur : cur <;>
    simp [cursorStep, hc, hcur]
  split <;> simp

theorem cursorStep_source (c : SyncCandidate) (cur : Option String) (y : String)
    (h : cursorStep c cur = some y) : c.cursor = some y ∨ cur = some y := by
  cases hc : c.cursor with
  | none =>
    simp only [cursorStep, hc] at h
    exact Or.inr h
  | some cc =>
    cases hcur : cur with
    | none =>
      simp only [cursorStep, hc, hcur] at h
      exact Or.inl h
    | some cur0 =>
      simp only [cursorStep, hc, hcur] at h
      by_cases hlt : strLtB cur0 cc = true
      · rw [if_pos hlt] at h
        exact Or.inl h
      · rw [if_neg hlt] at h
        exact Or.inr h

theorem cursorStep_ge_cur (c : SyncCandidate) (x y : String)
    (h : cursorStep c (some x) = some y) : x ≤ y := by
  cases hc : c.cursor with
  | none => simp [cursorStep, hc] at h; exact h ▸ le_refl x
  | some cc =>
    simp only [cursorStep, hc] at h
    by_cases hlt : strLtB x cc = true <;> simp only [hlt, Bool.false_eq_true, if_true, if_false] at h
    · injection h with h
      exact h ▸ (strLtB_iff x cc).mp hlt |>.le
    · injection h with h
      exact h ▸ le_refl x

theorem cursorStep_ge_c (c : SyncCandidate) (cur : Option String) (x y : String)
    (hx : c.cursor = some x) (h : cursorStep c cur = some y) : x ≤ y := by
  cases hcur : cur with
  | none =>
    simp [cursorStep, hx, hcur] at h
    exact h ▸ le_refl x
  | some cur0 =>
    rw [hcur] at h
    simp only [cursorStep, hx] at h
    by_cases hlt : strLtB cur0 x = true <;> simp only [hlt, Bool.false_eq_true, if_true, if_false] at h
    · injection h with h
      exact h ▸ le_refl x
    · injection h with h
      refine h ▸ not_lt.mp ?_
      intro hcx
      exact hlt ((strLtB_iff cur0 x).mpr hcx)

theorem cursorStep_isSome (c : SyncCandidate) (cur : Option String) (x : String)
    (hx : c.cursor = some x) : (cursorStep c cur).isSome := by
  cases hcur : cur <;> simp only [cursorStep, hx]
  · simp
  · split <;> simp

theorem cursorStep_isSome_cur (c : SyncCandidate) (x : String) :
    (cursorStep c (some x)).isSome := by
  cases hc : c.cursor <;> simp only [cursorStep, hc]
  · simp
  · split <;> simp

theorem syncItems_cursor_none (now : String) :
    ∀ (cs : List SyncCandidate) (acc : ItemsTable × Option String × Nat)
      (tbl' : ItemsTable) (cnt : Nat),
      syncItems now cs acc = .ok (tbl', none, cnt) →
        acc.2.1 = none ∧ ∀ c ∈ cs, c.cursor = none := by
  intro cs
  induction cs with
  | nil =>
    intro acc tbl' cnt h
    unfold syncItems at h
    injection h with h
    subst h
    exact ⟨rfl, by simp⟩
  | cons c rest ih =>
    intro acc tbl' cnt h
    unfold syncItems at h
    cases hup : upsertItem now c.item acc.1 with
    | error e => rw [hup] at h; cases h
    | ok items =>
      rw [hup] at h
      obtain ⟨hstep, hrest⟩ := ih _ _ _ h
      dsimp only at hstep
      obtain ⟨hc, hcur⟩ := (cursorStep_none_iff c acc.2.1).mp hstep
      refine ⟨hcur, ?_⟩
      intro d hd
      rcases List.mem_cons.mp hd with rfl | hd
      · exact hc
      · exact hrest d hd

theorem syncItems_cursor_some (now : String) :
    ∀ (cs : List SyncCandidate) (acc : ItemsTable × Option String × Nat)
      (tbl' : ItemsTable) (m : String) (cnt : Nat),
      syncItems now cs acc = .ok (tbl', some m, cnt) →
        (acc.2.1 = some m ∨ ∃ c ∈ cs, c.cursor = some m) ∧
        (∀ x, acc.2.1 = some x → x ≤ m) ∧
        (∀ c ∈ cs, ∀ x, c.cursor = some x → x ≤ m) := by
  intro cs
  induction cs with
  | nil =>
    intro acc tbl' m cnt h
    unfold syncItems at h
    injection h with h
    subst h
    refine ⟨Or.inl rfl, ?_, by simp⟩
    intro x hx
    have hmx : m = x := by simpa using hx
    exact le_of_eq hmx.symm
  | cons c rest ih =>
    intro acc tbl' m cnt h
    unfold syncItems at h
    cases hup : upsertItem now c.item acc.1 with
    | error e => rw [hup] at h; cases h
    | ok items =>
      rw [hup] at h
      obtain ⟨hmem, hbound, hrest⟩ := ih _ _ _ _ h
      dsimp only at hmem hbound
      constructor
      · rcases hmem with hstep | ⟨d, hd, hdm⟩
        · rcases cursorStep_source c acc.2.1 m hstep with hc | hcur
          · exact Or.inr ⟨c, List.mem_cons_self c rest, hc⟩
          · exact Or.inl hcur
        · exact Or.inr ⟨d, List.mem_cons_of_mem c hd, hdm⟩
      constructor
      · intro x hx
        have hss : (cursorStep c acc.2.1).isSome := by
          rw [hx]; exact cursorStep_isSome_cur c x
        obtain ⟨z, hz⟩ := Option.isSome_iff_exists.mp hss
        have hxz : x ≤ z := cursorStep_ge_cur c x z (hx ▸ hz)
        exact le_trans hxz (hbound z hz)
      · intro d hd x hx
        rcases List.mem_cons.mp hd with rfl | hd
        · have hss : (cursorStep d acc.2.1).isSome := cursorStep_isSome d acc.2.1 x hx
          obtain ⟨z, hz⟩ := Option.isSome_iff_exists.mp hss
          have hxz : x ≤ z := cursorStep_ge_c d acc.2.1 x z hx hz
          exact le_trans hxz (hbound z hz)
        · exact hrest d hd x hx

theorem syncFromVps_ok_inversion
    (st : DbState) (resp : SyncResponse) (now : String) (st' : DbState) (res : SyncResult)
    (hok : syncFromVps st resp now = .ok (st', res)) :
    ∃ sources items cursor cnt,
      responseOk resp = true ∧
      syncSources now st.sources
        (dedupeSources ((extractPayloadItems resp.payload).filterMap normalizeSyncCandidate))
        st.sources = .ok sources ∧
      syncItems now ((extractPayloadItems resp.payload).filterMap normalizeSyncCandidate)
        (st.items, none, 0) = .ok (items, cursor, cnt) ∧
      st' = { sources := sources, items := items, lastSyncCursor := some (cursor.getD now) } ∧
      res = { lastSync := cursor.getD now, previousSync := st.lastSyncCursor, itemCount := cnt,
              skippedCount := (extractPayloadItems resp.payload).length -
                ((extractPayloadItems resp.payload).filterMap normalizeSyncCandidate).length } := by
  unfold syncFromVps at hok
  by_cases hresp : responseOk resp
  · simp only [hresp, not_true_eq_false, if_false] at hok
    cases hs : syncSources now st.sources
        (dedupeSources ((extractPayloadItems resp.payload).filterMap normalizeSyncCandidate))
        st.sources with
    | error e => rw [hs] at hok; cases hok
    | ok sources =>
      rw [hs] at hok
      cases hi : syncItems now
          ((extractPayloadItems resp.payload).filterMap normalizeSyncCandidate)
          (st.items, none, 0) with
      | error e => rw [hi] at hok; cases hok
      | ok out =>
        obtain ⟨items, cursor, cnt⟩ := out
        rw [hi] at hok
        injection hok with hok
        have hst := (congrArg Prod.fst hok).symm
        have hres := (congrArg Prod.snd hok).symm
        dsimp only at hst hres
        exact ⟨sources, items, cursor, cnt, hresp, rfl, rfl, hst, hres⟩
  · rw [if_pos hresp] at hok
    cases hok

theorem syncFromVps_cursor_regression :
    syncFromVps staleCursorState staleCursorResp "2024-06-02T00:00:00.000Z" =
      .ok staleCursorOut ∧
    staleCursorState.lastSyncCursor = some "2024-06-01T00:00:00.000Z" ∧
    staleCursorOut.1.lastSyncCursor = some "2020-01-01T00:00:00.000Z" ∧
    ("2020-01-01T00:00:00.000Z" : String) < "2024-06-01T00:00:00.000Z" :=
  ⟨rfl, rfl, by decide, by rw [String.lt_iff_toList_lt]; decide⟩

theorem syncFromVps_cursor_max_rule
    (st : DbState) (resp : SyncResponse) (now : String) (st' : DbState) (res : SyncResult)
    (hok : syncFromVps st resp now = .ok (st', res)) :
    st'.lastSyncCursor = some res.lastSync ∧
    ((∀ c ∈ (extractPayloadItems resp.payload).filterMap normalizeSyncCandidate,
        c.cursor = none) → res.lastSync = now) ∧
    ((∃ c ∈ (extractPayloadItems resp.payload).filterMap normalizeSyncCandidate,
        c.cursor = some res.lastSync) ∨ res.lastSync = now) ∧
    (∀ c ∈ (extractPayloadItems resp.payload).filterMap normalizeSyncCandidate,
      ∀ x, c.cursor = some x → x ≤ res.lastSync) ∧
    (∀ prev, st.lastSyncCursor = some prev → prev ≤ now →
      (∀ c ∈ (extractPayloadItems resp.payload).filterMap normalizeSyncCandidate,
        ∀ x, c.cursor = some x → prev ≤ x) →
      prev ≤ res.lastSync) := by
  obtain ⟨sources, items, cursor, cnt, hresp, hs, hi, hst, hres⟩ :=
    syncFromVps_ok_inversion st resp now st' res hok
  subst hst
  subst hres
  cases hcur : cursor with
  | none =>
    obtain ⟨-, hall⟩ := syncItems_cursor_none now _ _ _ _ (hcur ▸ hi)
    refine ⟨rfl, fun _ => rfl, Or.inr rfl, ?_, ?_⟩
    · intro c hc x hx
      exact absurd (hall c hc) (by rw [hx]; simp)
    · intro prev hprev hnow hcand
      simpa using hnow
  | some m =>
    obtain ⟨hmem, -, hbound⟩ := syncItems_cursor_some now _ _ _ _ _ (hcur ▸ hi)
    rcases hmem with hcontra | hmem
    · cases hcontra
    refine ⟨rfl, ?_, ?_, ?_, ?_⟩
    · intro hall
      obtain ⟨c, hc, hcm⟩ := hmem
      exact absurd (hall c hc) (by rw [hcm]; simp)
    · exact Or.inl hmem
    · intro c hc x hx
      exact hbound c hc x hx
    · intro prev hprev hnow hcand
      obtain ⟨c, hc, hcm⟩ := hmem
      exact hcand c hc m hcm

theorem syncFromVps_cursor_max_rule_witness :
    syncFromVps c2State c2Resp "2024-07-04T00:00:00.000Z" = .ok c2Out ∧
    (c2Out.1.lastSyncCursor = some c2Out.2.lastSync ∧
    ((∀ c ∈ (extractPayloadItems c2Resp.payload).filterMap normalizeSyncCandidate,
        c.cursor = none) → c2Out.2.lastSync = "2024-07-04T00:00:00.000Z") ∧
    ((∃ c ∈ (extractPayloadItems c2Resp.payload).filterMap normalizeSyncCandidate,
        c.cursor = some c2Out.2.lastSync) ∨ c2Out.2.lastSync = "2024-07-04T00:00:00.000Z") ∧
    (∀ c ∈ (extractPayloadItems c2Resp.payload).filterMap normalizeSyncCandidate,
      ∀ x, c.cursor = some x → x ≤ c2Out.2.lastSync) ∧
    (∀ prev, c2State.lastSyncCursor = some prev → prev ≤ "2024-07-04T00:00:00.000Z" →
      (∀ c ∈ (extractPayloadItems c2Resp.payload).filterMap normalizeSyncCandidate,
        ∀ x, c.cursor = some x → prev ≤ x) →
      prev ≤ c2Out.2.lastSync)) :=
  ⟨rfl, syncFromVps_cursor_max_rule c2State c2Resp "2024-07-04T00:00:00.000Z"
    c2Out.1 c2Out.2 rfl⟩

theorem find_of_mem_nodup (tbl : List SourceRow) (s0 : SourceRow)
    (hU : (tbl.map (fun r => r.id)).Nodup) (hmem : s0 ∈ tbl) :
    findSourceRow s0.id tbl = some s0 := by
  induction tbl with
  | nil => cases hmem
  | cons a rest ih =>
    rcases List.mem_cons.mp hmem with rfl | hmem
    · unfold findSourceRow
      simp [List.find?]
    · have hne : ¬ a.id = s0.id := by
        intro h
        have : s0.id ∈ rest.map (fun r => r.id) := List.mem_map_of_mem _ hmem
        rw [List.map_cons, List.nodup_cons] at hU
        exact hU.1 (h ▸ this)
      unfold findSourceRow at ih ⊢
      rw [List.find?_cons_of_neg _ (by simpa using hne)]
      exact ih (by rw [List.map_cons, List.nodup_cons] at hU; exact hU.2) hmem

theorem upsertSource_pres (now : String) (inp : UpsertSourceInput)
    (tbl tbl' : List SourceRow) (s0 : SourceRow)
    (hinp : inp.id = s0.id → inp.enabled = some s0.enabled ∧ inp.added_at = some s0.added_at)
    (hP : sourcePres s0 tbl)
    (hok : upsertSource now inp tbl = .ok tbl') : sourcePres s0 tbl' := by
  obtain ⟨s', hfind, hen, had⟩ := hP
  unfold upsertSource at hok
  split_ifs at hok with h1 h2 h3 h4
  · -- conflict branch: rows with the colliding id rewritten in place
    injection hok with hok
    subst hok
    unfold sourcePres
    unfold findSourceRow at hfind ⊢
    have hsid : s'.id = s0.id := by simpa using List.find?_some hfind
    rw [find_map_pres _ _ (source_sel_pres_id inp s0.id), hfind]
    by_cases hid : inp.id = s0.id
    · obtain ⟨hen2, had2⟩ := hinp hid
      refine ⟨sourceConflictUpdate inp s', by simp [hsid, hid.symm], ?_, ?_⟩
      · rw [sourceConflictUpdate, hen2]
        cases h : s0.enabled <;> simp [enabledBit]
      · exact had
    · refine ⟨s', ?_, hen, had⟩
      have hneq : ¬ s'.id = inp.id := by rw [hsid]; exact fun h => hid h.symm
      simp [hneq]
  · -- insert branch: the found row is untouched
    injection hok with hok
    subst hok
    unfold sourcePres
    unfold findSourceRow at hfind ⊢
    exact ⟨s', find_append_some _ hfind _, hen, had⟩

theorem syncSources_pres (now : String) (existing : List SourceRow) (s0 : SourceRow)
    (hfindE : findSourceRow s0.id existing = some s0) :
    ∀ (inputs : List UpsertSourceInput) (tbl tbl' : List SourceRow),
      sourcePres s0 tbl →
      syncSources now existing inputs tbl = .ok tbl' → sourcePres s0 tbl' := by
  intro inputs
  induction inputs with
  | nil =>
    intro tbl tbl' hP h
    unfold syncSources at h
    injection h with h
    exact h ▸ hP
  | cons src rest ih =>
    intro tbl tbl' hP h
    unfold syncSources at h
    cases hup : upsertSource now (injectExisting existing src) tbl with
    | error e => rw [hup] at h; cases h
    | ok tbl2 =>
      rw [hup] at h
      refine ih tbl2 tbl' ?_ h
      refine upsertSource_pres now _ tbl tbl2 s0 ?_ hP hup
      intro hid
      unfold injectExisting
      have hid' : src.id = s0.id := by
        unfold injectExisting at hid
        cases hfind : findSourceRow src.id existing <;> simp [hfind] at hid <;> exact hid
      rw [hid', hfindE]
      simp

theorem syncFromVps_preserves_source_enabled
    (st : DbState) (resp : SyncResponse) (now : String) (st' : DbState) (res : SyncResult)
    (s0 : SourceRow)
    (hU : (st.sources.map (fun r => r.id)).Nodup)
    (hmem : s0 ∈ st.sources)
    (hok : syncFromVps st resp now = .ok (st', res)) :
    ∃ s', findSourceRow s0.id st'.sources = some s' ∧
      s'.enabled = s0.enabled ∧ s'.added_at = s0.added_at := by
  obtain ⟨sources, items, cursor, cnt, -, hs, -, hst, -⟩ :=
    syncFromVps_ok_inversion st resp now st' res hok
  subst hst
  have hfindE := find_of_mem_nodup st.sources s0 hU hmem
  have hP0 : sourcePres s0 st.sources := ⟨s0, hfindE, rfl, rfl⟩
  exact syncSources_pres now st.sources s0 hfindE _ _ _ hP0 hs

theorem syncFromVps_preserves_source_enabled_witness :
    ((preSyncState.sources.map (fun r => r.id)).Nodup ∧
      disabledSource ∈ preSyncState.sources ∧
      syncFromVps preSyncState c8Resp "2024-06-02T00:00:00.000Z" = .ok c8Out) ∧
    (∃ s', findSourceRow disabledSource.id c8Out.1.sources = some s' ∧
      s'.enabled = disabledSource.enabled ∧ s'.added_at = disabledSource.added_at) :=
  ⟨⟨by decide, by decide, rfl⟩,
    syncFromVps_preserves_source_enabled preSyncState c8Resp "2024-06-02T00:00:00.000Z"
      c8Out.1 c8Out.2 disabledSource (by decide) (by decide) rfl⟩

theorem coalesce_assoc (x y z : Option String) :
    coalesce (coalesce x y) z = coalesce x (coalesce y z) := by
  cases x <;> simp [coalesce]

theorem coalesce_self (x : Option String) : coalesce x x = x := by
  cases x <;> simp [coalesce]

theorem conflict_eq_applyEff (now : String) (i : UpsertItemInput) (r : ItemRow) :
    conflictUpdate now i r = applyEff now (effOfInput i) r := by
  unfold conflictUpdate applyEff effOfInput
  rw [if_lt_max]

theorem seqEff_assoc (a b c : MergeEff) :
    seqEff (seqEff a b) c = seqEff a (seqEff b c) := by
  simp [seqEff, coalesce_assoc, max_assoc]

theorem seqEff_self (e : MergeEff) : seqEff e e = e := by
  simp [seqEff, coalesce_self]

theorem applyEff_applyEff (now1 now2 : String) (e f : MergeEff) (r : ItemRow) :
    applyEff now2 f (applyEff now1 e r) = applyEff now2 (seqEff e f) r := by
  simp [applyEff, seqEff, coalesce_assoc, max_assoc]

theorem eraseFetched_applyEff (now now' : String) (e : MergeEff) (r : ItemRow) :
    eraseFetched (applyEff now e r) = eraseFetched (applyEff now' e r) := by
  simp [eraseFetched, applyEff]

theorem foldl_seqEff_assoc (s : List UpsertItemInput) :
    ∀ a b : MergeEff,
      s.foldl (fun e j => seqEff e (effOfInput j)) (seqEff a b) =
        seqEff a (s.foldl (fun e j => seqEff e (effOfInput j)) b) := by
  induction s with
  | nil => intro a b; rfl
  | cons c s ih =>
    intro a b
    simp only [List.foldl_cons]
    rw [seqEff_assoc, ih]

theorem foldC_cons_eq_applyEff (now : String) :
    ∀ (s : List UpsertItemInput) (i : UpsertItemInput) (r : ItemRow),
      foldC now (i :: s) r = applyEff now (listEff i s) r := by
  intro s
  induction s with
  | nil =>
    intro i r
    exact conflict_eq_applyEff now i r
  | cons j s ih =>
    intro i r
    show foldC now (j :: s) (conflictUpdate now i r) = _
    rw [ih j (conflictUpdate now i r), conflict_eq_applyEff, applyEff_applyEff]
    congr 1
    unfold listEff
    simp only [List.foldl_cons]
    rw [foldl_seqEff_assoc]

theorem conflictUpdate_url_eq (now : String) (i : UpsertItemInput) (r : ItemRow) :
    (conflictUpdate now i r).url = r.url := rfl

theorem foldC_url (now : String) :
    ∀ (s : List UpsertItemInput) (r : ItemRow), (foldC now s r).url = r.url := by
  intro s
  induction s with
  | nil => intro r; rfl
  | cons j s ih =>
    intro r
    show (foldC now s (conflictUpdate now j r)).url = r.url
    rw [ih]
    rfl

theorem matchFold_eq_foldC (now : String) :
    ∀ (P : List UpsertItemInput) (r : ItemRow),
      matchFold now P r = foldC now (matchItems r.url P) r := by
  intro P
  induction P with
  | nil => intro r; rfl
  | cons i P ih =>
    intro r
    by_cases h : r.url = i.url
    · show matchFold now P (if r.url = i.url then conflictUpdate now i r else r) = _
      rw [if_pos h]
      rw [ih (conflictUpdate now i r)]
      unfold matchItems
      rw [List.filter_cons_of_pos (by simpa using h)]
      show foldC now (matchItems r.url P) (conflictUpdate now i r) =
        foldC now (i :: matchItems r.url P) r
      rfl
    · show matchFold now P (if r.url = i.url then conflictUpdate now i r else r) = _
      rw [if_neg h]
      rw [ih r]
      unfold matchItems
      rw [List.filter_cons_of_neg (by simpa using h)]

theorem presentUrl_upsertStep (now : String) (i : UpsertItemInput) (t : ItemsTable)
    (u : String) (h : presentUrl u t = true) :
    presentUrl u (upsertItemStep now i t) = true := by
  unfold presentUrl at h ⊢
  unfold upsertItemStep
  by_cases hpres : t.rows.any (fun r => r.url = i.url)
  · simp only [hpres, if_true]
    rw [any_map_pres _ _ (sel_pres_url now i u)]
    exact h
  · simp only [Bool.not_eq_true] at hpres
    simp only [hpres, Bool.false_eq_true, if_false]
    rw [List.any_append, h]
    rfl

theorem presentUrl_upsertStep_self (now : String) (i : UpsertItemInput) (t : ItemsTable) :
    presentUrl i.url (upsertItemStep now i t) = true := by
  unfold presentUrl upsertItemStep
  by_cases hpres : t.rows.any (fun r => r.url = i.url)
  · simp only [hpres, if_true]
    rw [any_map_pres _ _ (sel_pres_url now i i.url)]
    exact hpres
  · simp only [Bool.not_eq_true] at hpres
    simp only [hpres, Bool.false_eq_true, if_false]
    rw [List.any_append]
    simp [newItemRow]

theorem passFold_all_present (now : String) :
    ∀ (P : List UpsertItemInput) (t : ItemsTable),
      (∀ i ∈ P, presentUrl i.url t = true) →
      passFold now P t = { rows := t.rows.map (matchFold now P), nextId := t.nextId } := by
  intro P
  induction P with
  | nil =>
    intro t _
    show t = _
    cases t with
    | mk rows nextId =>
      show ItemsTable.mk rows nextId = _
      have : rows.map (matchFold now []) = rows.map (fun r => r) := rfl
      rw [this, List.map_id']
  | cons i P ih =>
    intro t hall
    show passFold now P (upsertItemStep now i t) = _
    have hpres : t.rows.any (fun r => r.url = i.url) = true :=
      hall i (List.mem_cons_self i P)
    have hstep : upsertItemStep now i t =
        { rows := t.rows.map (fun r => if r.url = i.url then conflictUpdate now i r else r),
          nextId := t.nextId } := by
      unfold upsertItemStep
      simp only [hpres, if_true]
    rw [hstep]
    rw [ih _ ?hall2]
    case hall2 =>
      intro j hj
      show (t.rows.map _).any _ = true
      rw [any_map_pres _ _ (sel_pres_url now i j.url)]
      exact hall j (List.mem_cons_of_mem i hj)
    simp only [List.map_map]
    congr 1

theorem matchItems_append_single (u : String) (Q : List UpsertItemInput)
    (i : UpsertItemInput) :
    matchItems u (Q ++ [i]) =
      matchItems u Q ++ (if u = i.url then [i] else []) := by
  unfold matchItems
  rw [List.filter_append]
  by_cases h : u = i.url
  · rw [if_pos h, List.filter_cons_of_pos (by simpa using h)]
    rfl
  · rw [if_neg h, List.filter_cons_of_neg (by simpa using h)]
    rfl

theorem conflict_newRow (now : String) (id : Nat) (i : UpsertItemInput) :
    conflictUpdate now i (newItemRow now id i) = newItemRow now id i := by
  unfold conflictUpdate newItemRow
  simp [coalesce_self]

theorem pass1_invariant (now1 : String) :
    ∀ (P Q : List UpsertItemInput) (t : ItemsTable),
      (∀ r ∈ t.rows, satFor now1 Q r) →
      (∀ j ∈ Q, presentUrl j.url t = true) →
      (∀ r ∈ (passFold now1 P t).rows, satFor now1 (Q ++ P) r) ∧
      (∀ j ∈ Q ++ P, presentUrl j.url (passFold now1 P t) = true) := by
  intro P
  induction P with
  | nil =>
    intro Q t hsat hpres
    simpa using ⟨hsat, hpres⟩
  | cons i P ih =>
    intro Q t hsat hpres
    have hstep2 : passFold now1 (i :: P) t = passFold now1 P (upsertItemStep now1 i t) := rfl
    have hsat2 : ∀ r ∈ (upsertItemStep now1 i t).rows, satFor now1 (Q ++ [i]) r := by
      intro r2 hr2
      unfold upsertItemStep at hr2
      by_cases hpres_i : t.rows.any (fun r => r.url = i.url)
      · -- conflict: r2 is sel applied to an original row
        simp only [hpres_i, if_true] at hr2
        obtain ⟨r, hr, hsel⟩ := List.mem_map.mp hr2
        subst hsel
        by_cases hurl : r.url = i.url
        · rw [if_pos hurl]
          have hurl2 : (conflictUpdate now1 i r).url = i.url := hurl
          unfold satFor
          rw [conflictUpdate_url_eq, matchItems_append_single, if_pos hurl]
          rcases hsat r hr with hempty | ⟨b, hb⟩
          · rw [hempty]
            refine Or.inr ⟨r, ?_⟩
            rfl
          · refine Or.inr ⟨b, ?_⟩
            have hfold : foldC now1 (matchItems r.url Q ++ [i]) b =
                conflictUpdate now1 i (foldC now1 (matchItems r.url Q) b) := by
              unfold foldC
              rw [List.foldl_append]
              rfl
            rw [hfold, ← hb]
        · rw [if_neg hurl]
          unfold satFor
          rw [matchItems_append_single, if_neg hurl, List.append_nil]
          exact hsat r hr
      · -- insert: old rows unmatched, the new row starts its history
        simp only [Bool.not_eq_true] at hpres_i
        simp only [hpres_i, Bool.false_eq_true, if_false] at hr2
        rcases List.mem_append.mp hr2 with hold | hnew
        · have hne : ¬ r2.url = i.url := by
            rw [List.any_eq_false] at hpres_i
            simpa using hpres_i r2 hold
          unfold satFor
          rw [matchItems_append_single, if_neg hne, List.append_nil]
          exact hsat r2 hold
        · have hr2eq : r2 = newItemRow now1 t.nextId i := by simpa using hnew
          subst hr2eq
          have hQempty : matchItems (newItemRow now1 t.nextId i).url Q = [] := by
            unfold matchItems
            rw [List.filter_eq_nil_iff]
            intro j hj
            intro hdec
            have hju : (newItemRow now1 t.nextId i).url = j.url := by simpa using hdec
            have hj2 := hpres j hj
            unfold presentUrl at hj2
            rw [List.any_eq_false] at hpres_i
            have hnone2 : ∀ r ∈ t.rows, ¬ r.url = i.url := by simpa using hpres_i
            rw [List.any_eq_true] at hj2
            obtain ⟨r, hr, hrj⟩ := hj2
            have hru : r.url = j.url := by simpa using hrj
            exact hnone2 r hr (by rw [hru, ← hju]; rfl)
          unfold satFor
          rw [matchItems_append_single, hQempty,
            if_pos (show (newItemRow now1 t.nextId i).url = i.url from rfl),
            List.nil_append]
          refine Or.inr ⟨newItemRow now1 t.nextId i, ?_⟩
          show _ = conflictUpdate now1 i (newItemRow now1 t.nextId i)
          rw [conflict_newRow]
    have hpres2 : ∀ j ∈ Q ++ [i], presentUrl j.url (upsertItemStep now1 i t) = true := by
      intro j hj
      rcases List.mem_append.mp hj with hjQ | hji
      · exact presentUrl_upsertStep now1 i t j.url (hpres j hjQ)
      · have : j = i := by simpa using hji
        subst this
        exact presentUrl_upsertStep_self now1 j t
    have := ih (Q ++ [i]) (upsertItemStep now1 i t) hsat2 hpres2
    rw [hstep2]
    constructor
    · intro r hr
      have h1 := this.1 r hr
      rwa [List.append_assoc, List.singleton_append] at h1
    · intro j hj
      refine this.2 j ?_
      rw [List.append_assoc, List.singleton_append]
      exact hj

theorem saturation (now1 now2 : String) (P : List UpsertItemInput) (r : ItemRow)
    (hsat : satFor now1 P r) :
    eraseFetched (matchFold now2 P r) = eraseFetched r := by
  rcases hsat with hempty | ⟨b, hb⟩
  · rw [matchFold_eq_foldC, hempty]
    rfl
  · cases hM : matchItems r.url P with
    | nil =>
      rw [matchFold_eq_foldC, hM]
      rfl
    | cons m M =>
      rw [hM] at hb
      rw [matchFold_eq_foldC, hM, foldC_cons_eq_applyEff]
      rw [hb, foldC_cons_eq_applyEff]
      rw [applyEff_applyEff, seqEff_self]
      exact eraseFetched_applyEff now2 now1 _ _

theorem applyItems_ok (now : String) :
    ∀ (P : List UpsertItemInput) (t : ItemsTable),
      (∀ i ∈ P, validItemInput i) →
      applyItems now P t = .ok (passFold now P t) := by
  intro P
  induction P with
  | nil => intro t _; rfl
  | cons i P ih =>
    intro t hv
    unfold applyItems
    rw [upsertItem_ok_of_valid now i t (hv i (List.mem_cons_self i P))]
    exact ih _ (fun j hj => hv j (List.mem_cons_of_mem _ hj))

theorem syncPayload_idempotent
    (now1 now2 : String) (P : List UpsertItemInput) (t t1 t2 : ItemsTable)
    (hv : ∀ i ∈ P, validItemInput i)
    (h1 : applyItems now1 P t = .ok t1)
    (h2 : applyItems now2 P t1 = .ok t2) :
    t2.rows.length = t1.rows.length ∧
    t2.rows.map eraseFetched = t1.rows.map eraseFetched ∧
    t2.nextId = t1.nextId ∧
    (∀ i ∈ P, ∃ r, r ∈ t2.rows ∧ r.url = i.url ∧ r.fetched_at = now2) := by
  rw [applyItems_ok now1 P t hv] at h1
  injection h1 with h1
  rw [applyItems_ok now2 P t1 hv] at h2
  injection h2 with h2
  subst h1
  have hinv := pass1_invariant now1 P [] t
    (by
      intro r hr
      exact Or.inl rfl)
    (by simp)
  simp only [List.nil_append] at hinv
  obtain ⟨hsatP, hpresP⟩ := hinv
  have hpass2 := passFold_all_present now2 P (passFold now1 P t) hpresP
  rw [hpass2] at h2
  subst h2
  refine ⟨by simp, ?_, rfl, ?_⟩
  · show ((passFold now1 P t).rows.map (matchFold now2 P)).map eraseFetched = _
    rw [List.map_map]
    apply List.map_congr_left
    intro r hr
    exact saturation now1 now2 P r (hsatP r hr)
  · intro i hi
    have hp := hpresP i hi
    unfold presentUrl at hp
    rw [List.any_eq_true] at hp
    obtain ⟨r1, hr1, hu⟩ := hp
    have hu2 : r1.url = i.url := by simpa using hu
    refine ⟨matchFold now2 P r1, List.mem_map_of_mem _ hr1, ?_, ?_⟩
    · rw [matchFold_eq_foldC, foldC_url]
      exact hu2
    · have hmem : i ∈ matchItems r1.url P := by
        unfold matchItems
        rw [List.mem_filter]
        exact ⟨hi, by simpa using hu2⟩
      cases hM : matchItems r1.url P with
      | nil => rw [hM] at hmem; cases hmem
      | cons m M =>
        rw [matchFold_eq_foldC, hM, foldC_cons_eq_applyEff]
        rfl

theorem syncPayload_idempotent_witness :
    ((∀ i ∈ [scenarioItem1, scenarioItem2], validItemInput i) ∧
      applyItems "2024-01-01T01:00:00.000Z" [scenarioItem1, scenarioItem2]
        { rows := [], nextId := 1 } = .ok c4Pass1 ∧
      applyItems "2024-01-02T01:00:00.000Z" [scenarioItem1, scenarioItem2] c4Pass1 =
        .ok c4Pass2) ∧
    (c4Pass2.rows.length = c4Pass1.rows.length ∧
      c4Pass2.rows.map eraseFetched = c4Pass1.rows.map eraseFetched ∧
      c4Pass2.nextId = c4Pass1.nextId ∧
      (∀ i ∈ [scenarioItem1, scenarioItem2], ∃ r, r ∈ c4Pass2.rows ∧
        r.url = i.url ∧ r.fetched_at = "2024-01-02T01:00:00.000Z")) :=
  ⟨⟨by decide, rfl, rfl⟩,
    syncPayload_idempotent "2024-01-01T01:00:00.000Z" "2024-01-02T01:00:00.000Z"
      [scenarioItem1, scenarioItem2] { rows := [], nextId := 1 } c4Pass1 c4Pass2
      (by decide) rfl rfl⟩
